import Mathlib

/-!
Shallow embedding of the octograph energy-ingestion scripts
(`app/octopus_to_influxdb.py` and `app/agileexportonly.py`).

Modelling conventions:
  - instants are seconds since the epoch (`ℤ`); timezones are fixed UTC
    offsets in seconds (`Option ℤ`, `none` for an absent/falsy zone value);
  - times-of-day (`unit_rate_low_start` / `unit_rate_low_end`, parsed by the
    script from `HH:MM` strings) are seconds within a day, in `[0, 86400)`;
  - monetary rates and consumption values are `ℚ`;
  - `maya.MayaInterval(start, end)` raises `ValueError` when `start > end`
    and its membership test is inclusive of the start and exclusive of the
    end (`start <= t < end`); `MayaDT.datetime()` with no target timezone
    yields the UTC wall clock.  Python exceptions are modelled with
    `Except String`.
-/

set_option autoImplicit false

namespace Octograph

/-- One entry of the Octopus Agile half-hourly rate feed: the JSON objects
carry `valid_from`, `valid_to` and `value_inc_vat`. -/
structure AgileRate where
  valid_from : ℤ := 0
  valid_to : ℤ := 0
  value_inc_vat : ℚ := 0
deriving DecidableEq, Repr

/-- The per-series `rate_data` dictionary built in `cmd`: electricity rows
use the banded fields and the agile list, gas rows use `unit_rate` and the
optional `conversion_factor`.  Absent dictionary keys are represented by the
defaults / `none`. -/
structure RateData where
  unit_rate : ℚ := 0
  unit_rate_high : ℚ := 0
  unit_rate_low : ℚ := 0
  unit_rate_low_start : ℤ := 0
  unit_rate_low_end : ℤ := 0
  unit_rate_low_zone : Option ℤ := none
  agile_unit_rates : List AgileRate := []
  conversion_factor : Option ℚ := none
deriving DecidableEq, Repr

/-- A consumption record returned by the metering API. -/
structure Measurement where
  interval_start : ℤ := 0
  interval_end : ℤ := 0
  consumption : ℚ := 0
deriving DecidableEq, Repr

/-- `maya.MayaInterval(start, end)`: raises `ValueError` when the interval
would end before it starts, otherwise stores the endpoint pair. -/
def mayaInterval (s e : ℤ) : Except String (ℤ × ℤ) :=
  if e < s then .error "MayaInterval cannot end before it starts" else .ok (s, e)

/-- Membership in a `maya.MayaInterval`: inclusive of the start, exclusive
of the end. -/
def mayaContains (p : ℤ × ℤ) (t : ℤ) : Prop := p.1 ≤ t ∧ t < p.2

instance (p : ℤ × ℤ) (t : ℤ) : Decidable (mayaContains p t) :=
  inferInstanceAs (Decidable (_ ∧ _))

/-- The `active_rate_field` closure of `store_series`, applied to the
measurement's `interval_start` instant.  `dayStart` is the instant of the
measurement's local midnight in the configured zone, so `dayStart + x` is the
instant whose local wall clock reads `x` seconds into that local day — this
is what `maya.when(measurement-local-date + time-string, timezone=zone)`
produces. -/
def active_rate_field (series : String) (rd : RateData) (interval_start : ℤ) :
    Except String String :=
  if series = "gas" then
    .ok "unit_rate"
  else
    match rd.unit_rate_low_zone with
    | none => .ok "unit_rate_high"
    | some zone =>
      let measurement_at := interval_start
      let dayStart := ((measurement_at + zone).ediv 86400) * 86400 - zone
      let low_start := dayStart + rd.unit_rate_low_start
      let low_end := dayStart + rd.unit_rate_low_end
      if low_end < low_start then
        match mayaInterval low_start (dayStart + 86399),
              mayaInterval dayStart low_end with
        | .ok low_period_a, .ok low_period_b =>
            .ok (if mayaContains low_period_a measurement_at
                    ∨ mayaContains low_period_b measurement_at
                 then "unit_rate_low" else "unit_rate_high")
        | .error e, _ => .error e
        | _, .error e => .error e
      else
        match mayaInterval low_start low_end with
        | .ok low_period =>
            .ok (if mayaContains low_period measurement_at
                    ∨ mayaContains low_period measurement_at
                 then "unit_rate_low" else "unit_rate_high")
        | .error e => .error e

theorem mayaInterval_ok (s e : ℤ) (h : ¬ e < s) : mayaInterval s e = .ok (s, e) := by
  simp [mayaInterval, h]

/-- Characterisation of `active_rate_field` on the banded (non-gas, zone
present) path purely in terms of the local time-of-day
`(t + zone).emod 86400` of the measurement instant. -/
theorem active_rate_field_eq_tod (series : String) (rd : RateData) (zone t : ℤ)
    (hs : ¬ series = "gas") (hz : rd.unit_rate_low_zone = some zone)
    (hs0 : 0 ≤ rd.unit_rate_low_start) (hs1 : rd.unit_rate_low_start < 86400)
    (he0 : 0 ≤ rd.unit_rate_low_end) (he1 : rd.unit_rate_low_end < 86400) :
    active_rate_field series rd t =
      .ok (if (if rd.unit_rate_low_end < rd.unit_rate_low_start then
                 (rd.unit_rate_low_start ≤ (t + zone).emod 86400 ∧
                    (t + zone).emod 86400 < 86399)
                 ∨ (t + zone).emod 86400 < rd.unit_rate_low_end
               else
                 rd.unit_rate_low_start ≤ (t + zone).emod 86400 ∧
                   (t + zone).emod 86400 < rd.unit_rate_low_end)
           then "unit_rate_low" else "unit_rate_high") := by
  have hkey : 86400 * ((t + zone).ediv 86400) + (t + zone).emod 86400 = t + zone :=
    Int.ediv_add_emod _ _
  have h0 : 0 ≤ (t + zone).emod 86400 := Int.emod_nonneg _ (by norm_num)
  have h1 : (t + zone).emod 86400 < 86400 := Int.emod_lt_of_pos _ (by norm_num)
  simp only [active_rate_field, if_neg hs, hz]
  by_cases hlt : rd.unit_rate_low_end < rd.unit_rate_low_start
  · rw [if_pos (by omega)]
    simp only [if_pos hlt]
    split
    next pa pb hpa hpb =>
      rw [mayaInterval_ok _ _ (by omega)] at hpa
      rw [mayaInterval_ok _ _ (by omega)] at hpb
      cases hpa; cases hpb
      refine congrArg Except.ok (if_congr ?_ rfl rfl)
      simp only [mayaContains]
      omega
    next e x heq =>
      rw [mayaInterval_ok _ _ (by omega)] at heq
      cases heq
    next x e heq hfalse =>
      rw [mayaInterval_ok _ _ (by omega)] at heq
      cases heq
  · rw [if_neg (by omega)]
    simp only [if_neg hlt]
    split
    next p hp =>
      rw [mayaInterval_ok _ _ (by omega)] at hp
      cases hp
      refine congrArg Except.ok (if_congr ?_ rfl rfl)
      simp only [mayaContains]
      omega
    next e heq =>
      rw [mayaInterval_ok _ _ (by omega)] at heq
      cases heq

/-- Hours/minutes pair extracted from a seconds-of-day value, as produced by
`strftime` with a `HH:MM` layout. -/
def hhmm (s : ℤ) : ℤ × ℤ := (s.ediv 3600, (s.emod 3600).ediv 60)

/-- Wall-clock `HH:MM` of an instant in UTC: `maya.parse(..).datetime()`
with no target timezone yields the UTC wall clock. -/
def utcHHMM (t : ℤ) : ℤ × ℤ := hhmm (t.emod 86400)

/-- Wall-clock `HH:MM` of an instant in a fixed-offset zone (`zone` seconds
east of UTC).  This is what the spec's words describe for the `time_of_day`
tag; it is not what the code computes. -/
def localHHMM (zone t : ℤ) : ℤ × ℤ := hhmm ((t + zone).emod 86400)

/-- The tag dictionary built by `tags_for_measurement`. -/
structure Tags where
  active_rate : String
  time_of_day : ℤ × ℤ
deriving DecidableEq, Repr

/-- The field dictionary built by `fields_for_measurement`: `consumption`
always, plus `agile_rate`/`agile_cost` when agile data was supplied. -/
structure Fields where
  consumption : ℚ
  agile : Option (ℚ × ℚ) := none
deriving DecidableEq, Repr

/-- Python `dict.get(key, default)` on a dict built by comprehension: later
entries shadow earlier ones, so the lookup finds the last binding. -/
def dictGet (l : List (ℤ × ℚ)) (k : ℤ) (dflt : ℚ) : ℚ :=
  match l.reverse.find? (fun p => p.1 == k) with
  | some p => p.2
  | none => dflt

/-- Dictionary indexing `rate_data[rate]` for the three field names that
`active_rate_field` can return. -/
def rateValue (rd : RateData) (name : String) : ℚ :=
  if name = "unit_rate" then rd.unit_rate
  else if name = "unit_rate_low" then rd.unit_rate_low
  else rd.unit_rate_high

/-- The consumption-conversion prologue of `fields_for_measurement`:
`conversion_factor = rate_data.get('conversion_factor', None)` followed by
`if conversion_factor: consumption *= conversion_factor` — Python truthiness
makes both `None` and `0` leave the raw value unchanged. -/
def convertConsumption (rd : RateData) (c : ℚ) : ℚ :=
  match rd.conversion_factor with
  | some f => if f = 0 then c else c * f
  | none => c

/-- The `agile_unit_rate` local of `fields_for_measurement`: look the
interval's end up in the dict built from `agile_unit_rates` (keyed by
`valid_to`), falling back to the static `rate_data[rate]` of the resolved
band. -/
def agileRateFor (rd : RateData) (m : Measurement) (rate : String) : ℚ :=
  dictGet (rd.agile_unit_rates.map fun p => (p.valid_to, p.value_inc_vat))
    m.interval_end (rateValue rd rate)

/-- The `fields_for_measurement` closure of `store_series`: converted
consumption always; `agile_rate`/`agile_cost` only when the agile list is
non-empty, with the cost computed from the converted consumption. -/
def fields_for_measurement (series : String) (rd : RateData) (m : Measurement) :
    Except String Fields :=
  match active_rate_field series rd m.interval_start with
  | .error e => .error e
  | .ok rate =>
    if rd.agile_unit_rates = [] then
      .ok { consumption := convertConsumption rd m.consumption }
    else
      .ok { consumption := convertConsumption rd m.consumption,
            agile := some (agileRateFor rd m rate,
                           agileRateFor rd m rate * convertConsumption rd m.consumption) }

/-- The `tags_for_measurement` closure of `store_series`:
`maya.parse(interval_end).datetime().strftime(HH:MM)` is the UTC wall clock
of `interval_end`. -/
def tags_for_measurement (series : String) (rd : RateData) (m : Measurement) :
    Except String Tags :=
  match active_rate_field series rd m.interval_start with
  | .error e => .error e
  | .ok r => .ok { active_rate := r, time_of_day := utcHHMM m.interval_end }

/-- One dictionary of the `measurements` list comprehension in
`store_series`. -/
structure InfluxMeasurement where
  measurement : String
  tags : Tags
  time : ℤ
  fields : Fields
deriving DecidableEq, Repr

/-- One InfluxDB point as assembled by
`Point(name).field(f, v).time(t)` — the write loop never calls `.tag`, so a
point's tag set is `none` unless code attaches one. -/
structure Point where
  name : String
  tags : Option Tags := none
  field : String × ℚ
  time : ℤ
deriving DecidableEq, Repr

/-- Field iteration order of the Python dict literal in
`fields_for_measurement`: `consumption` first, then the agile pair. -/
def fieldsList (f : Fields) : List (String × ℚ) :=
  ("consumption", f.consumption) ::
    (match f.agile with
     | some (r, c) => [("agile_rate", r), ("agile_cost", c)]
     | none => [])

/-- One element of the `measurements` list comprehension in `store_series`
(tags evaluated before fields, as in the dict literal). -/
def measurement_entry (series : String) (rd : RateData) (m : Measurement) :
    Except String InfluxMeasurement :=
  match tags_for_measurement series rd m, fields_for_measurement series rd m with
  | .ok tg, .ok fl =>
      .ok { measurement := series, tags := tg, time := m.interval_end, fields := fl }
  | .error e, _ => .error e
  | _, .error e => .error e

/-- The full `measurements` list comprehension of `store_series`; the first
raised exception aborts the whole comprehension. -/
def measurementsOf (series : String) (rd : RateData) :
    List Measurement → Except String (List InfluxMeasurement)
  | [] => .ok []
  | m :: rest =>
    match measurement_entry series rd m, measurementsOf series rd rest with
    | .ok e, .ok es => .ok (e :: es)
    | .error err, _ => .error err
    | _, .error err => .error err

/-- `store_series`, modelled as the sequence of points handed to
`write_api.write`: the write loop constructs every point as
`Point("electricity").field(field, value).time(measurement['time'])`,
ignoring the measurement's own series name and tag dictionary. -/
def store_series (series : String) (rd : RateData) (metrics : List Measurement) :
    Except String (List Point) :=
  match measurementsOf series rd metrics with
  | .error e => .error e
  | .ok ms =>
      .ok ((ms.map fun m =>
        (fieldsList m.fields).map fun fv =>
          ({ name := "electricity", tags := none, field := fv, time := m.time } : Point)).flatten)

/-- One JSON page body of the consumption/rate API: a `results` array (via
`data.get('results', [])`, so a missing key reads as `[]`) and a nullable
`next` continuation URL, abstracted to a Bool. -/
structure PageData where
  results : List ℕ
  next : Bool
deriving DecidableEq, Repr

/-- The error taxonomy for pagination: any failed page request
(`raise_for_status`, malformed JSON body, missing `next` key) surfaces as
the spec's `SourceUnavailable`. -/
inductive SourceError where
  | sourceUnavailable
deriving DecidableEq, Repr

/-- The response the source gives to one page request: either a page body
or a failure. -/
abbrev PageResponse := Except SourceError PageData

/-- `retrieve_paginated_data`, over the trace of successive page responses:
request the first page; on success append the recursively fetched remainder
whenever `data['next']` is non-null; any raised exception propagates and no
partial result is returned.  An exhausted trace stands for a request the
source never answers and also fails. -/
def retrieve_paginated_data : List PageResponse → Except SourceError (List ℕ)
  | [] => .error .sourceUnavailable
  | .error e :: _ => .error e
  | .ok p :: rest =>
    if p.next then
      match retrieve_paginated_data rest with
      | .ok more => .ok (p.results ++ more)
      | .error e => .error e
    else .ok p.results

/-- The point built for one agile rate in `store_agilerates`:
`Point("electricity").field("agile_rate", value_inc_vat).time(valid_from)`. -/
def agile_point (r : AgileRate) : Point :=
  { name := "electricity", tags := none,
    field := ("agile_rate", r.value_inc_vat), time := r.valid_from }

/-- The accumulation loop of `store_agilerates` in `agileexportonly.py`:
append each point, write and reset whenever `len(points) > 48`, and always
issue one final write with whatever remains (possibly the empty list).  The
result is the list of `write_api.write` calls, each with its point batch. -/
def store_agilerates_loop : List AgileRate → List Point → List (List Point)
  | [], points => [points]
  | r :: rest, points =>
    let points' := points ++ [agile_point r]
    if 48 < points'.length then
      points' :: store_agilerates_loop rest []
    else
      store_agilerates_loop rest points'

/-- `store_agilerates`, as the sequence of batches handed to
`write_api.write`. -/
def store_agilerates (agile_data : List AgileRate) : List (List Point) :=
  store_agilerates_loop agile_data []

/-! ### Concrete schedules used by counterexamples and witnesses -/

/-- A midnight-crossing banded schedule: low band 23:00 → 01:00, zone UTC. -/
def rdMidnight : RateData :=
  { unit_rate_high := 3/10, unit_rate_low := 1/10,
    unit_rate_low_start := 82800, unit_rate_low_end := 3600,
    unit_rate_low_zone := some 0 }

/-- An ordered banded schedule: low band 01:00 → 02:00, zone UTC. -/
def rdDay : RateData :=
  { unit_rate_high := 3/10, unit_rate_low := 1/10,
    unit_rate_low_start := 3600, unit_rate_low_end := 7200,
    unit_rate_low_zone := some 0 }

/-- A degenerate banded schedule: `low_start = low_end = 00:00`, the value
both keys read when absent from the configuration. -/
def rdDegenerate : RateData :=
  { unit_rate_high := 3/10, unit_rate_low := 1/10,
    unit_rate_low_start := 0, unit_rate_low_end := 0,
    unit_rate_low_zone := some 0 }

/-- C1 (amended): for a Banded schedule with `low_start > low_end`, the
resolver returns "low" iff the local time-of-day is in `[low_start, 23:59:59)`
or in `[00:00:00, low_end)` — the two maya intervals are inclusive of the
start and exclusive of the end, so an instant whose local time-of-day is
exactly `23:59:59` or exactly `low_end` resolves "high", not "low" as the
claim's closed intervals would demand. -/
theorem C1_midnight_band (series : String) (rd : RateData) (zone t : ℤ)
    (hs : series ≠ "gas") (hz : rd.unit_rate_low_zone = some zone)
    (he0 : 0 ≤ rd.unit_rate_low_end)
    (hlt : rd.unit_rate_low_end < rd.unit_rate_low_start)
    (hs1 : rd.unit_rate_low_start < 86400) :
    active_rate_field series rd t =
      .ok (if (rd.unit_rate_low_start ≤ (t + zone).emod 86400 ∧
                 (t + zone).emod 86400 < 86399)
              ∨ (t + zone).emod 86400 < rd.unit_rate_low_end
           then "unit_rate_low" else "unit_rate_high") := by
  rw [active_rate_field_eq_tod series rd zone t hs hz (by omega) hs1 he0 (by omega)]
  simp only [if_pos hlt]

/-- C1 counterexample: in `rdMidnight` (low 23:00 → 01:00, zone UTC) the
instant `t = 3600` has local time-of-day exactly `low_end` (01:00:00), so the
claim's "low iff time-of-day ≥ low_start or ≤ low_end" demands "low"; the
code resolves "high" because the post-midnight maya interval excludes its
end. -/
theorem C1_counterexample :
    (3600 + 0 : ℤ).emod 86400 ≤ rdMidnight.unit_rate_low_end ∧
    rdMidnight.unit_rate_low_end < rdMidnight.unit_rate_low_start ∧
    active_rate_field "electricity" rdMidnight 3600 = .ok "unit_rate_high" :=
  ⟨by decide, by decide, rfl⟩

/-- C1 witness: at `t = 82800` (local 23:00:00, the band start) `rdMidnight`
resolves "low". -/
theorem C1_witness :
    active_rate_field "electricity" rdMidnight 82800 = .ok "unit_rate_low" := by
  rw [C1_midnight_band "electricity" rdMidnight 0 82800 (by decide) rfl
        (by decide) (by decide) (by decide)]
  rw [if_pos (by decide)]

/-- C2 (amended): for a Banded schedule with `low_start ≤ low_end`, the
resolver returns "low" iff the local time-of-day lies in the half-open
interval `[low_start, low_end)` — the right endpoint is excluded (and a
degenerate band `low_start = low_end` is never "low"), not the closed
interval of the claim. -/
theorem C2_ordered_band (series : String) (rd : RateData) (zone t : ℤ)
    (hs : series ≠ "gas") (hz : rd.unit_rate_low_zone = some zone)
    (hs0 : 0 ≤ rd.unit_rate_low_start)
    (hle : rd.unit_rate_low_start ≤ rd.unit_rate_low_end)
    (he1 : rd.unit_rate_low_end < 86400) :
    active_rate_field series rd t =
      .ok (if rd.unit_rate_low_start ≤ (t + zone).emod 86400 ∧
              (t + zone).emod 86400 < rd.unit_rate_low_end
           then "unit_rate_low" else "unit_rate_high") := by
  rw [active_rate_field_eq_tod series rd zone t hs hz hs0 (by omega) (by omega) he1]
  simp only [if_neg (not_lt.mpr hle)]

/-- C2 counterexample: in `rdDay` (low 01:00 → 02:00, zone UTC) the instant
`t = 7200` has local time-of-day exactly `low_end` (02:00:00), inside the
claim's closed interval `[low_start, low_end]`, yet the code resolves
"high". -/
theorem C2_counterexample :
    rdDay.unit_rate_low_start ≤ (7200 + 0 : ℤ).emod 86400 ∧
    (7200 + 0 : ℤ).emod 86400 ≤ rdDay.unit_rate_low_end ∧
    active_rate_field "electricity" rdDay 7200 = .ok "unit_rate_high" :=
  ⟨by decide, by decide, rfl⟩

/-- C2 witness: at `t = 3600` (local 01:00:00, the band start) `rdDay`
resolves "low". -/
theorem C2_witness :
    active_rate_field "electricity" rdDay 3600 = .ok "unit_rate_low" := by
  rw [C2_ordered_band "electricity" rdDay 0 3600 (by decide) rfl
        (by decide) (by decide) (by decide)]
  rw [if_pos (by decide)]

/-- C3: a schedule that declares no low band — an absent/falsy timezone, or
`low_start = low_end` (both keys read "00:00" when absent) — resolves "high"
for every instant, and in particular the degenerate maya interval raises no
error. -/
theorem C3_no_band_high (rd : RateData) (t : ℤ)
    (h : rd.unit_rate_low_zone = none ∨
         (rd.unit_rate_low_start = rd.unit_rate_low_end ∧
          0 ≤ rd.unit_rate_low_start ∧ rd.unit_rate_low_start < 86400)) :
    active_rate_field "electricity" rd t = .ok "unit_rate_high" := by
  rcases h with hz | ⟨hse, h0, h1⟩
  · simp [active_rate_field, hz]
  · cases hzopt : rd.unit_rate_low_zone with
    | none => simp [active_rate_field, hzopt]
    | some zone =>
        rw [active_rate_field_eq_tod "electricity" rd zone t (by simp) hzopt
              h0 h1 (hse ▸ h0) (hse ▸ h1)]
        simp only [if_neg (show ¬ rd.unit_rate_low_end < rd.unit_rate_low_start by omega)]
        rw [if_neg (by omega)]

/-- C3 witness: the degenerate schedule `rdDegenerate` resolves "high" at
`t = 12345`. -/
theorem C3_witness :
    active_rate_field "electricity" rdDegenerate 12345 = .ok "unit_rate_high" :=
  C3_no_band_high rdDegenerate 12345 (Or.inr ⟨rfl, by decide, by decide⟩)

/-! ### Enrichment claims -/

theorem dictGet_of_no_match (l : List (ℤ × ℚ)) (k : ℤ) (dflt : ℚ)
    (h : ∀ p ∈ l, p.1 ≠ k) : dictGet l k dflt = dflt := by
  unfold dictGet
  rw [List.find?_eq_none.mpr]
  intro p hp
  simpa using h p (List.mem_reverse.mp hp)

/-- C4: when the supplied (non-empty) dynamic price series has no entry whose
`valid_to` matches the record's `interval_end`, the attached `agile_rate` is
the schedule's statically resolved rate for the band active at the record,
and `agile_cost` is that rate times the converted consumption. -/
theorem C4_agile_fallback (series : String) (rd : RateData) (m : Measurement)
    (rate : String)
    (hne : rd.agile_unit_rates ≠ [])
    (harf : active_rate_field series rd m.interval_start = .ok rate)
    (hnomatch : ∀ p ∈ rd.agile_unit_rates, p.valid_to ≠ m.interval_end) :
    fields_for_measurement series rd m =
      .ok { consumption := convertConsumption rd m.consumption,
            agile := some (rateValue rd rate,
                           rateValue rd rate * convertConsumption rd m.consumption) } := by
  have hag : agileRateFor rd m rate = rateValue rd rate := by
    unfold agileRateFor
    exact dictGet_of_no_match _ _ _ (by
      intro p hp
      obtain ⟨q, hq, rfl⟩ := List.mem_map.mp hp
      exact hnomatch q hq)
  unfold fields_for_measurement
  split
  next e heq => rw [harf] at heq; cases heq
  next r heq =>
    rw [harf] at heq
    cases heq
    rw [if_neg hne, hag]

/-- A non-empty agile price series whose single entry's `valid_to` (1800)
matches no half-hour boundary used below. -/
def rdAgileMiss : RateData :=
  { unit_rate_high := 3/10, unit_rate_low := 1/10,
    unit_rate_low_start := 0, unit_rate_low_end := 0,
    unit_rate_low_zone := some 0,
    agile_unit_rates := [{ valid_from := 0, valid_to := 1800, value_inc_vat := 25 }] }

/-- A consumption record whose `interval_end` (3600) matches no entry of
`rdAgileMiss`. -/
def mAgileMiss : Measurement :=
  { interval_start := 0, interval_end := 3600, consumption := 1 }

/-- C4 witness: the fallback produces the static high rate 3/10 and the cost
`3/10 * 1` for `mAgileMiss` under `rdAgileMiss`. -/
theorem C4_witness :
    fields_for_measurement "electricity" rdAgileMiss mAgileMiss =
      .ok { consumption := 1, agile := some (3/10, 3/10 * 1) } := by
  exact C4_agile_fallback "electricity" rdAgileMiss mAgileMiss "unit_rate_high"
    (by decide) rfl (by decide)

/-- C10: an absent, `None` or zero `conversion_factor` leaves the raw
consumption unchanged (Python truthiness: `if conversion_factor:`); a
non-zero factor multiplies it; and the agile cost is computed from the
already-converted consumption. -/
theorem C10_conversion (series : String) (rd : RateData) (m : Measurement)
    (flds : Fields) (h : fields_for_measurement series rd m = .ok flds) :
    ((rd.conversion_factor = none ∨ rd.conversion_factor = some 0) →
        flds.consumption = m.consumption) ∧
    (∀ f : ℚ, rd.conversion_factor = some f → f ≠ 0 →
        flds.consumption = m.consumption * f) ∧
    (∀ r c : ℚ, flds.agile = some (r, c) → c = r * flds.consumption) := by
  have hcons : flds.consumption = convertConsumption rd m.consumption ∧
      (∀ r c : ℚ, flds.agile = some (r, c) → c = r * flds.consumption) := by
    unfold fields_for_measurement at h
    split at h
    · cases h
    · next rate heq =>
        by_cases hag : rd.agile_unit_rates = []
        · rw [if_pos hag] at h
          simp only [Except.ok.injEq] at h
          subst h
          exact ⟨rfl, by simp⟩
        · rw [if_neg hag] at h
          simp only [Except.ok.injEq] at h
          subst h
          refine ⟨rfl, ?_⟩
          intro r c hr
          simp only [Option.some.injEq, Prod.mk.injEq] at hr
          rw [← hr.1, ← hr.2]
  refine ⟨?_, ?_, hcons.2⟩
  · rintro (hn | h0)
    · simp [hcons.1, convertConsumption, hn]
    · simp [hcons.1, convertConsumption, h0]
  · intro f hf hf0
    simp [hcons.1, convertConsumption, hf, hf0]

/-- A gas rate row with flat unit rate 7 and a conversion factor of 3. -/
def rdGas : RateData :=
  { unit_rate := 7, conversion_factor := some 3 }

/-- A gas consumption record of 10 raw cubic-metre units. -/
def mGas : Measurement :=
  { interval_start := 0, interval_end := 1800, consumption := 10 }

/-- The fields the enricher produces for `mGas` under `rdGas`. -/
def fldsGas : Fields :=
  { consumption := 10 * 3, agile := none }

/-- C10 witness: a conversion factor of 3 multiplies the 10 raw gas units. -/
theorem C10_witness :
    fldsGas.consumption = mGas.consumption * 3 :=
  (C10_conversion "gas" rdGas mGas fldsGas (by rfl)).2.1
    3 rfl (by norm_num)

/-! ### Tagging -/

/-- C8 (amended): the `time_of_day` tag is the UTC wall clock (HH:MM) of the
record's `interval_end`, not the clock time in the schedule's configured
timezone — `period.datetime()` is called without a target timezone and so
yields UTC. -/
theorem C8_time_of_day_utc (series : String) (rd : RateData) (m : Measurement)
    (tg : Tags) (h : tags_for_measurement series rd m = .ok tg) :
    tg.time_of_day = utcHHMM m.interval_end := by
  unfold tags_for_measurement at h
  split at h
  · cases h
  · simp only [Except.ok.injEq] at h
    subst h
    rfl

/-- A banded schedule in a zone one hour east of UTC (offset 3600 s), with a
degenerate low band so the resolver is deterministic. -/
def rdPlusOne : RateData :=
  { unit_rate_high := 30, unit_rate_low := 10,
    unit_rate_low_start := 0, unit_rate_low_end := 0,
    unit_rate_low_zone := some 3600 }

/-- A record ending at the epoch instant `t = 0`
(1970-01-01T00:00:00Z, local wall clock 01:00 in `rdPlusOne`'s zone). -/
def mEpoch : Measurement :=
  { interval_start := 0, interval_end := 0, consumption := 1 }

/-- C8 counterexample: for `mEpoch` under `rdPlusOne` the emitted
`time_of_day` tag reads 00:00 (UTC) while the wall clock of `interval_end`
in the schedule's configured zone reads 01:00, which the claim demands. -/
theorem C8_counterexample :
    tags_for_measurement "electricity" rdPlusOne mEpoch =
      .ok { active_rate := "unit_rate_high", time_of_day := (0, 0) } ∧
    localHHMM 3600 mEpoch.interval_end = (1, 0) :=
  ⟨rfl, by decide⟩

/-- C8 witness: the tag equals the UTC HH:MM of `interval_end` for
`mEpoch` under `rdPlusOne`. -/
theorem C8_witness :
    ({ active_rate := "unit_rate_high", time_of_day := (0, 0) } : Tags).time_of_day =
      utcHHMM mEpoch.interval_end :=
  C8_time_of_day_utc "electricity" rdPlusOne mEpoch
    { active_rate := "unit_rate_high", time_of_day := (0, 0) } (by rfl)

/-! ### Pagination -/

/-- C5: `retrieve_paginated_data` follows continuation tokens until a page
reports none, concatenating pages in source order: three pages of sizes
100/100/7 yield their concatenation (207 records), and a page reporting no
`next` yields exactly that page's records whatever the source would have
answered afterwards. -/
theorem C5_pagination (r1 r2 r3 : List ℕ)
    (h1 : r1.length = 100) (h2 : r2.length = 100) (h3 : r3.length = 7) :
    (retrieve_paginated_data
        [.ok { results := r1, next := true },
         .ok { results := r2, next := true },
         .ok { results := r3, next := false }]
      = .ok (r1 ++ (r2 ++ r3)) ∧ (r1 ++ (r2 ++ r3)).length = 207) ∧
    ∀ (res : List ℕ) (rest : List PageResponse),
      retrieve_paginated_data (.ok { results := res, next := false } :: rest)
        = .ok res := by
  refine ⟨⟨?_, ?_⟩, ?_⟩
  · simp [retrieve_paginated_data]
  · simp [h1, h2, h3]
  · intro res rest
    simp [retrieve_paginated_data]

/-- C5 witness: concrete pages of sizes 100, 100 and 7 yield the 207-record
concatenation, and a first page with a null `next` yields its own records. -/
theorem C5_witness :
    (retrieve_paginated_data
        [.ok { results := List.replicate 100 0, next := true },
         .ok { results := List.replicate 100 1, next := true },
         .ok { results := List.replicate 7 2, next := false }]
      = .ok (List.replicate 100 0 ++ (List.replicate 100 1 ++ List.replicate 7 2)) ∧
     (List.replicate 100 (0:ℕ) ++ (List.replicate 100 1 ++ List.replicate 7 2)).length = 207) ∧
    retrieve_paginated_data
        [.ok { results := [5, 6], next := false },
         .ok { results := [7], next := true }]
      = .ok [5, 6] := by
  have h := C5_pagination (List.replicate 100 0) (List.replicate 100 1)
    (List.replicate 7 2) (by simp) (by simp) (by simp)
  exact ⟨h.1, h.2 [5, 6] [.ok { results := [7], next := true }]⟩

/-- C6: if any page request in the followed chain fails, the whole fetch
evaluates to the `SourceUnavailable` error — the pages already retrieved
before the failing one are not delivered. -/
theorem C6_fetch_atomic (okPages : List PageData) (e : SourceError)
    (rest : List PageResponse) (h : ∀ p ∈ okPages, p.next = true) :
    retrieve_paginated_data (okPages.map Except.ok ++ Except.error e :: rest)
      = .error SourceError.sourceUnavailable := by
  cases e
  induction okPages with
  | nil => simp [retrieve_paginated_data]
  | cons p ps ih =>
      have hp : p.next = true := h p (by simp)
      have ih' := ih (fun q hq => h q (by simp [hq]))
      simp only [List.map_cons, List.cons_append, retrieve_paginated_data, hp, if_true,
        List.append_eq]
      rw [ih']

/-- C6 witness: a successful first page followed by a failing second request
returns the failure and discards the first page's records. -/
theorem C6_witness :
    retrieve_paginated_data
        [Except.ok { results := [1, 2], next := true },
         Except.error SourceError.sourceUnavailable]
      = .error SourceError.sourceUnavailable := by
  have h := C6_fetch_atomic [{ results := [1, 2], next := true }]
    SourceError.sourceUnavailable [] (by simp)
  simpa using h

/-! ### Batch emission -/

/-- Running the `store_agilerates` loop over a remainder that brings the
batch to exactly 49 points produces one flush of all 49 followed by the
final (empty) write: the `len(points) > 48` test only fires once the batch
already holds 49 points. -/
theorem store_agilerates_loop_one_flush (l : List AgileRate) :
    ∀ acc : List Point, acc.length ≤ 48 → acc.length + l.length = 49 →
      store_agilerates_loop l acc = [acc ++ l.map agile_point, []] := by
  induction l with
  | nil =>
      intro acc h1 h2
      simp only [List.length_nil] at h2
      exact absurd h2 (by omega)
  | cons r rest ih =>
      intro acc h1 h2
      simp only [store_agilerates_loop]
      by_cases hc : 48 < (acc ++ [agile_point r]).length
      · rw [if_pos hc]
        have hrest : rest = [] := by
          apply List.length_eq_zero.mp
          simp only [List.length_append, List.length_cons, List.length_nil] at hc
          simp only [List.length_cons] at h2
          omega
        subst hrest
        simp [store_agilerates_loop]
      · rw [if_neg hc]
        rw [ih (acc ++ [agile_point r])
              (by simp only [List.length_append, List.length_cons, List.length_nil] at hc ⊢; omega)
              (by simp only [List.length_append, List.length_cons, List.length_nil] at h2 ⊢; omega)]
        simp

/-- C7 (amended): the emitter flushes a batch only once it exceeds 48
points — i.e. at 49 — and then always issues a final write with the
remainder, empty included: emitting exactly 49 measurements triggers exactly
2 write calls, the first of 49 points and the second of 0 points (not 48 and
1 as the claim states). -/
theorem C7_batch_flush (l : List AgileRate) (h : l.length = 49) :
    (store_agilerates l).map List.length = [49, 0] := by
  unfold store_agilerates
  rw [store_agilerates_loop_one_flush l [] (by simp) (by simp [h])]
  simp [h]

/-- Forty-nine identical agile rate entries. -/
def sampleAgileRates : List AgileRate :=
  List.replicate 49 { valid_from := 0, valid_to := 1800, value_inc_vat := 10 }

/-- C7 counterexample: emitting exactly 49 rates produces write calls of
sizes 49 and 0, not the claimed 48 and 1. -/
theorem C7_counterexample :
    sampleAgileRates.length = 49 ∧
    (store_agilerates sampleAgileRates).map List.length = [49, 0] ∧
    (store_agilerates sampleAgileRates).map List.length ≠ [48, 1] :=
  ⟨by decide, by decide, by decide⟩

/-- C7 witness: the amended flush behaviour at the concrete 49-entry
input. -/
theorem C7_witness :
    (store_agilerates sampleAgileRates).map List.length = [49, 0] :=
  C7_batch_flush sampleAgileRates (by simp [sampleAgileRates])

/-- C9 (code bug): the `measurements` list built by `store_series` records
the series name ("gas") and the computed tag set, but the write loop then
constructs every point as `Point("electricity")` with no `.tag` calls, so a
gas measurement is written under the electricity series name with its tags
dropped. -/
theorem C9_emitter_drops_series_and_tags :
    measurementsOf "gas" rdGas [mGas] =
      .ok [{ measurement := "gas",
             tags := { active_rate := "unit_rate", time_of_day := (0, 30) },
             time := 1800,
             fields := { consumption := 10 * 3, agile := none } }] ∧
    store_series "gas" rdGas [mGas] =
      .ok [{ name := "electricity", tags := none,
             field := ("consumption", 10 * 3), time := 1800 }] :=
  ⟨rfl, rfl⟩

end Octograph
